import Mathlib

/-
DRIFT — Discord Relay Into Forum Threads.
Shallow embedding of the migration engine (src/lib/migrator.js) and proofs
about it.  JavaScript strings are modelled as Lean strings (lengths count
characters), machine ids and timestamps as Nat, Discord collections as lists.
Remote-API effects (page fetches, post/webhook creation, sends, downloads)
are supplied by an explicit environment so that the engine's control flow is
a total function of its inputs.
-/

namespace Drift

-- ── Constants (migrator.js lines 7-10) ───────────────────────────────────────

/-- 25 MB — standard bot upload cap (migrator.js line 9). -/
def MAX_FILE_SIZE : Nat := 25 * 1024 * 1024

/-- Discord message character limit (migrator.js line 10). -/
def MAX_CONTENT_LEN : Nat := 2000

-- ── Data model ───────────────────────────────────────────────────────────────

/-- An attachment of a source message: name, declared byte size, optional
description.  The download of its bytes is modelled by the environment. -/
structure Attachment where
  name : String
  size : Nat
  description : Option String := none
  deriving DecidableEq, Repr

/-- A sticker reference on a source message. -/
structure Sticker where
  name : String
  deriving DecidableEq, Repr

/-- An embed on a source message; `etype` models `e.data?.type`
(`none` when the embed carries no data/type). -/
structure Embed where
  etype : Option String := none
  deriving DecidableEq, Repr

/-- A source message as read from the channel (the fields of discord.js
`Message` that migrator.js reads). -/
structure Msg where
  id : Nat
  content : String := ""
  attachments : List Attachment := []
  embeds : List Embed := []
  stickers : List Sticker := []
  system : Bool := false
  replyRef : Option Nat := none
  createdTimestamp : Nat := 0
  deriving DecidableEq, Repr

/-- A forum tag of the destination forum channel. -/
structure ForumTag where
  name : String
  tagId : Nat
  deriving DecidableEq, Repr

/-- An outgoing file built from a downloaded attachment
(`new AttachmentBuilder(buf, {name, description})`, migrator.js lines 399-402). -/
structure OutFile where
  name : String
  description : Option String := none
  deriving DecidableEq, Repr

/-- Accumulator of the attachment loop of `sendMigratedMessage`
(migrator.js lines 387-406): outgoing files collected so far and the
payload content with warning lines appended so far. -/
structure FilesState where
  files : List OutFile
  content : String
  deriving DecidableEq, Repr

/-- The outgoing payload of one migrated message (content with markers and
warnings, capped file list, rich embeds).  The author identity fields
(username, avatarURL) are not modelled; no claim concerns them. -/
structure Payload where
  content : String
  files : List OutFile := []
  embeds : List Embed := []
  deriving DecidableEq, Repr

-- ── String helpers ───────────────────────────────────────────────────────────

/-- `Array.prototype.join(sep)` on a list of strings. -/
def joinSep (sep : String) : List String → String
  | [] => ""
  | [a] => a
  | a :: b :: rest => a ++ sep ++ joinSep sep (b :: rest)

/-- `Array.prototype.join(', ')`. -/
def joinComma (l : List String) : String := joinSep ", " l

/-- `big` contains `small` as a contiguous substring. -/
def strContains (big small : String) : Prop :=
  ∃ pre post, big.data = pre ++ small.data ++ post

/-- `big` ends with the string `tail`. -/
def strEndsWith (big tail : String) : Prop :=
  ∃ pre, big.data = pre ++ tail.data

/-- JavaScript `s.substring(0, n)` (clamping; the first `n` characters). -/
def jsSubstring (s : String) (n : Nat) : String := ⟨s.data.take n⟩

/-- JavaScript `s.toLowerCase()`. -/
def jsToLower (s : String) : String := ⟨s.data.map Char.toLower⟩

/-- JavaScript `s.trim()`: strip leading and trailing whitespace. -/
def jsTrim (s : String) : String :=
  ⟨((s.data.dropWhile Char.isWhitespace).reverse.dropWhile Char.isWhitespace).reverse⟩

-- ── History fetcher (migrator.js lines 310-336) ──────────────────────────────

/-- One `channel.messages.fetch({limit: 100, before})` call.  The channel's
full history `msgs` is held by the remote system newest-first; a fetch
returns up to 100 messages, all strictly older (smaller id) than the
cursor when one is given. -/
def fetchPage (msgs : List Msg) (cursor : Option Nat) : List Msg :=
  match cursor with
  | none => msgs.take 100
  | some c => (msgs.dropWhile (fun m => decide (c ≤ m.id))).take 100

/-- The fetch loop of `fetchAllMessages` (migrator.js lines 315-333): page
backward with `before = last seen id`, stop at the first empty batch,
accumulate batches in fetch order.  `fuel` bounds the number of iterations
(the JS loop is `while (true)`); `none` means the fuel ran out. -/
def fetchAllGo (msgs : List Msg) : Nat → Option Nat → List Msg → Option (List Msg)
  | 0, _, _ => none
  | fuel + 1, cursor, all =>
    match (fetchPage msgs cursor).getLast? with
    | none => some all
    | some lastMsg => fetchAllGo msgs fuel (some lastMsg.id) (all ++ fetchPage msgs cursor)

/-- `fetchAllMessages` (migrator.js lines 310-336): run the fetch loop, then
reverse once so the result is oldest-first. -/
def fetchAllMessages (msgs : List Msg) : Option (List Msg) :=
  (fetchAllGo msgs (msgs.length + 1) none []).map List.reverse

/-- Instrumented fetch loop recording the successive nonempty batches
(pages) instead of their concatenation. -/
def fetchPagesGo (msgs : List Msg) : Nat → Option Nat → List (List Msg) → Option (List (List Msg))
  | 0, _, _ => none
  | fuel + 1, cursor, acc =>
    match (fetchPage msgs cursor).getLast? with
    | none => some acc
    | some lastMsg => fetchPagesGo msgs fuel (some lastMsg.id) (acc ++ [fetchPage msgs cursor])

/-- The successive pages fetched by `fetchAllMessages`. -/
def fetchPages (msgs : List Msg) : Option (List (List Msg)) :=
  fetchPagesGo msgs (msgs.length + 1) none []

-- ── Message transformer (migrator.js lines 343-425) ──────────────────────────

/-- The small-caption timestamp suffix appended to every migrated message
(migrator.js lines 344-345). -/
def timestampSuffix (m : Msg) : String :=
  "\n-# <t:" ++ toString (m.createdTimestamp / 1000) ++ ":f>"

/-- Message text after the reply marker is prepended and the sticker marker
is appended (migrator.js lines 348-360). -/
def contentWithMarkers (m : Msg) : String :=
  let c := m.content
  let c := if m.replyRef.isSome then "↩️ *replying to an earlier message*\n" ++ c else c
  if m.stickers.isEmpty then c
  else c ++ "\n-# 🏷️ Sticker: " ++ joinComma (m.stickers.map Sticker.name)

/-- Final message content: truncate (reserving room for the timestamp suffix
and an ellipsis) when over the limit, then append the timestamp suffix
(migrator.js lines 362-366). -/
def transformedContent (m : Msg) : String :=
  (if MAX_CONTENT_LEN < (contentWithMarkers m).length + (timestampSuffix m).length then
    jsSubstring (contentWithMarkers m) (MAX_CONTENT_LEN - (timestampSuffix m).length - 4) ++ "…"
  else contentWithMarkers m) ++ timestampSuffix m

/-- The nothing-to-send test of `sendMigratedMessage` (migrator.js lines
370-373): content is only the timestamp suffix and there are no
attachments and no embeds. -/
def nothingToSend (m : Msg) : Bool :=
  (jsTrim (transformedContent m) == jsTrim (timestampSuffix m))
    && m.attachments.isEmpty && m.embeds.isEmpty

/-- `formatSize` (migrator.js lines 468-473).  The one decimal digit is
computed by truncating Nat division where JS formats a float with
`toFixed(1)`; no claim depends on the digit's rounding. -/
def formatSize (bytes : Nat) : String :=
  if 1024 ^ 3 ≤ bytes then
    toString (bytes * 10 / 1024 ^ 3 / 10) ++ "." ++ toString (bytes * 10 / 1024 ^ 3 % 10) ++ " GB"
  else if 1024 ^ 2 ≤ bytes then
    toString (bytes * 10 / 1024 ^ 2 / 10) ++ "." ++ toString (bytes * 10 / 1024 ^ 2 % 10) ++ " MB"
  else if 1024 ≤ bytes then
    toString (bytes * 10 / 1024 / 10) ++ "." ++ toString (bytes * 10 / 1024 % 10) ++ " KB"
  else toString bytes ++ " B"

/-- Warning line appended for an attachment over the upload cap
(migrator.js line 391). -/
def largeFileWarning (a : Attachment) : String :=
  "\n-# ⚠️ Skipped large file: **" ++ a.name ++ ("** (" ++ formatSize a.size ++ ")")

/-- Warning line appended when an attachment download fails
(migrator.js line 404). -/
def downloadFailWarning (a : Attachment) (e : String) : String :=
  "\n-# ⚠️ Could not download: **" ++ a.name ++ ("** — " ++ e)

/-- Warning line appended when more than 10 files were downloaded
(migrator.js line 412). -/
def fileCapWarning (n : Nat) : String :=
  "\n-# ⚠️ " ++ toString (n - 10) ++ " additional file(s) could not be included (10-file limit per message)"

/-- `new AttachmentBuilder(buf, {name: attachment.name || 'attachment',
description: attachment.description || undefined})` (migrator.js lines 399-402). -/
def mkOutFile (a : Attachment) : OutFile :=
  { name := if a.name = "" then "attachment" else a.name
    description := match a.description with
      | some d => if d = "" then none else some d
      | none => none }

/-- One iteration of the attachment loop (migrator.js lines 389-406).
`dl a` is the outcome of `fetch(attachment.url)` for this attachment:
`Except.ok` when the download succeeded, `Except.error e` with the failure
reason otherwise. -/
def attachStep (dl : Attachment → Except String Unit) (st : FilesState) (a : Attachment) :
    FilesState :=
  if MAX_FILE_SIZE < a.size then
    { files := st.files, content := st.content ++ largeFileWarning a }
  else
    match dl a with
    | Except.ok _ => { files := st.files ++ [mkOutFile a], content := st.content }
    | Except.error e => { files := st.files, content := st.content ++ downloadFailWarning a e }

/-- The whole attachment loop of `sendMigratedMessage`. -/
def buildFiles (dl : Attachment → Except String Unit) (content : String)
    (atts : List Attachment) : FilesState :=
  atts.foldl (attachStep dl) { files := [], content := content }

/-- The 10-file cap (migrator.js lines 408-415): keep the first 10 files and
append a warning counting the omitted ones.  An absent `payload.files` is
modelled as the empty list. -/
def applyFileCap (st : FilesState) : List OutFile × String :=
  if 10 < st.files.length then
    (st.files.take 10, st.content ++ fileCapWarning st.files.length)
  else (st.files, st.content)

/-- Did the download of this attachment succeed? -/
def dlOk (dl : Attachment → Except String Unit) (a : Attachment) : Bool :=
  match dl a with
  | Except.ok _ => true
  | Except.error _ => false

/-- The pure part of `sendMigratedMessage` (migrator.js lines 343-424):
the payload handed to `webhook.send`, or `none` when there is nothing to
send.  `dl` supplies the download outcomes of the attachments. -/
def sendMigratedMessage (dl : Attachment → Except String Unit) (m : Msg) : Option Payload :=
  if nothingToSend m then none
  else
    let capped := applyFileCap (buildFiles dl (transformedContent m) m.attachments)
    some { content := capped.2
           files := capped.1
           embeds := m.embeds.filter (fun e => e.etype == some "rich") }

-- ── Replay loop of the orchestrator (migrator.js lines 148-211) ──────────────

/-- Outcome of the `webhook.send` call for one message, supplied by the
environment: success, or a failure carrying the rate-limit flag
(`err.status === 429 || err.code === 429`), the optional `err.retryAfter`
seconds, and whether the single retry would succeed. -/
inductive SendBehavior where
  | ok : SendBehavior
  | err (isRateLimit : Bool) (retryAfter : Option Nat) (retrySucceeds : Bool) : SendBehavior
  deriving DecidableEq, Repr

/-- `(err.retryAfter || 5) * 1000` (migrator.js line 178): the resolved
retry interval in milliseconds; a missing or zero (falsy) `retryAfter`
defaults to 5 seconds. -/
def retryMs (ra : Option Nat) : Nat :=
  (match ra with
   | some n => if n = 0 then 5 else n
   | none => 5) * 1000

/-- The completely-empty test of the replay loop (migrator.js lines 163-166):
no content, no attachments, no embeds, no stickers. -/
def isEmptyMsg (m : Msg) : Bool :=
  m.content == "" && m.attachments.isEmpty && m.embeds.isEmpty && m.stickers.isEmpty

/-- A message the replay loop skips: a system message or a completely empty
one (migrator.js lines 156-170). -/
def isSkipped (m : Msg) : Bool := m.system || isEmptyMsg m

/-- Did the send step for this message complete without an error being
counted?  True when the transformer had nothing to send (no `webhook.send`
call happens), when the first send succeeds, or when a rate-limited first
send is followed by a successful retry. -/
def sendSucceeds (b : SendBehavior) (m : Msg) : Bool :=
  nothingToSend m ||
    match b with
    | SendBehavior.ok => true
    | SendBehavior.err true _ r => r
    | SendBehavior.err false _ _ => false

/-- State of the replay loop.  `messageCount`, `attachmentCount`,
`skippedCount`, `errorCount` are the counters of migrator.js lines 148-151.
`sentCount` (messages whose send step completed without error),
`sendAttempts` (number of `webhook.send` invocations) and `rlSleeps`
(durations of rate-limit back-off sleeps, in ms) are instrumentation
recording observable behaviour. -/
structure LoopState where
  messageCount : Nat := 0
  attachmentCount : Nat := 0
  skippedCount : Nat := 0
  errorCount : Nat := 0
  sentCount : Nat := 0
  sendAttempts : Nat := 0
  rlSleeps : List Nat := []
  deriving DecidableEq, Repr

/-- The initial counters (all zero, migrator.js lines 148-151). -/
def initState : LoopState := {}

/-- One iteration of the replay loop (migrator.js lines 154-207): skip
system and empty messages, otherwise run the send step with the single
rate-limit retry, updating the counters exactly as the code does. -/
def stepMsg (b : SendBehavior) (m : Msg) (st : LoopState) : LoopState :=
  if m.system then
    { st with skippedCount := st.skippedCount + 1, messageCount := st.messageCount + 1 }
  else if isEmptyMsg m then
    { st with skippedCount := st.skippedCount + 1, messageCount := st.messageCount + 1 }
  else if nothingToSend m then
    -- sendMigratedMessage returns without calling webhook.send; the loop
    -- takes the success path (attachmentCount += size, here 0).
    { st with attachmentCount := st.attachmentCount + m.attachments.length
              sentCount := st.sentCount + 1
              messageCount := st.messageCount + 1 }
  else
    match b with
    | SendBehavior.ok =>
      { st with attachmentCount := st.attachmentCount + m.attachments.length
                sentCount := st.sentCount + 1
                sendAttempts := st.sendAttempts + 1
                messageCount := st.messageCount + 1 }
    | SendBehavior.err true ra retryOk =>
      if retryOk then
        { st with attachmentCount := st.attachmentCount + m.attachments.length
                  sentCount := st.sentCount + 1
                  sendAttempts := st.sendAttempts + 2
                  rlSleeps := st.rlSleeps ++ [retryMs ra + 500]
                  messageCount := st.messageCount + 1 }
      else
        { st with errorCount := st.errorCount + 1
                  sendAttempts := st.sendAttempts + 2
                  rlSleeps := st.rlSleeps ++ [retryMs ra + 500]
                  messageCount := st.messageCount + 1 }
    | SendBehavior.err false _ _ =>
      { st with errorCount := st.errorCount + 1
                sendAttempts := st.sendAttempts + 1
                messageCount := st.messageCount + 1 }

/-- The replay loop over the fetched messages (inside the `try` of
migrator.js lines 153-207).  `beh i` is the send behaviour for the `i`-th
message; `crashAt = some i` injects an unexpected runtime exception at
iteration `i` (what the surrounding `try/finally` guards against); the
code itself contains no throw inside the loop body. -/
def replayGo (beh : Nat → SendBehavior) (crashAt : Option Nat) :
    List Msg → Nat → LoopState → Except String LoopState
  | [], _, st => Except.ok st
  | m :: rest, i, st =>
    if crashAt = some i then Except.error "Unexpected error during replay"
    else replayGo beh crashAt rest (i + 1) (stepMsg (beh i) m st)

-- ── Orchestrator (migrator.js lines 28-253) ──────────────────────────────────

/-- The bot's permissions on the source and forum channels
(the five capabilities checked at migrator.js lines 50-54). -/
structure Perms where
  viewChannel : Bool
  readMessageHistory : Bool
  sendMessages : Bool
  manageWebhooks : Bool
  createPublicThreads : Bool
  deriving DecidableEq, Repr

/-- The aggregated list of missing permissions (migrator.js lines 49-54). -/
def missingPerms (p : Perms) : List String :=
  (if p.viewChannel then [] else ["View Channel (source)"]) ++
  (if p.readMessageHistory then [] else ["Read Message History (source)"]) ++
  (if p.sendMessages then [] else ["Send Messages (forum)"]) ++
  (if p.manageWebhooks then [] else ["Manage Webhooks (forum)"]) ++
  (if p.createPublicThreads then [] else ["Create Posts (forum)"])

/-- The migration request (the `opts` of `migrateChannel`) together with the
read-only state of the two channels.  `requiresTag` is the destination
forum's tag-required setting: part of the remote data model, never read by
migrator.js. -/
structure Request where
  sourceIsText : Bool := true
  forumIsForum : Bool := true
  perms : Perms := ⟨true, true, true, true, true⟩
  pinsOnly : Bool := false
  tagName : Option String := none
  availableTags : List ForumTag := []
  requiresTag : Bool := false
  postName : Option String := none
  sourceName : String := "general"
  archiveSource : Bool := false
  deriving DecidableEq, Repr

/-- Error thrown by `forumChannel.threads.create` (migrator.js lines 129-133):
an optional numeric error code and a message. -/
structure CreateErr where
  code : Option Nat := none
  message : String := ""
  deriving DecidableEq, Repr

/-- The remote-API effects of one run: fetch results, creation outcomes,
per-message send behaviour, an optional injected crash during replay, and
whether the best-effort tail calls fail. -/
structure Env where
  pinnedFetch : Except String (List Msg) := Except.ok []
  fetchResult : Except String (List Msg) := Except.ok []
  threadCreate : Except CreateErr Unit := Except.ok ()
  webhookCreate : Except String Unit := Except.ok ()
  behavior : Nat → SendBehavior := fun _ => SendBehavior.ok
  crashAt : Option Nat := none
  webhookDeleteFails : Bool := false
  notifyFails : Bool := false
  archiveFails : Bool := false

/-- The `MigrationResult` summary (migrator.js lines 243-252).  `threadUrl`,
`threadId` and `duration` (wall-clock) are not modelled; no claim concerns
them. -/
structure MigrationResult where
  postTitle : String
  messageCount : Nat
  attachmentCount : Nat
  skippedCount : Nat
  errorCount : Nat
  deriving DecidableEq, Repr

deriving instance DecidableEq for Except

/-- Observable outcome of one `migrateChannel` run: the returned result or
thrown error, whether the destination post had been created, whether the
webhook had been created, how many times `webhook.delete` was invoked,
which tag ids were applied at post creation, and the number of messages
whose send step succeeded. -/
structure RunTrace where
  outcome : Except String MigrationResult
  postCreated : Bool
  webhookCreated : Bool
  deleteCalls : Nat
  appliedTags : List Nat
  sentCount : Nat
  deriving DecidableEq, Repr

/-- A run that throws before the destination post was created. -/
def failTrace (e : String) : RunTrace :=
  { outcome := Except.error e, postCreated := false, webhookCreated := false
    deleteCalls := 0, appliedTags := [], sentCount := 0 }

/-- Tag resolution (migrator.js lines 78-98): an explicit name is matched
case-insensitively, a miss throws listing the available tags; with no name
given, a tag literally named "migrated" (case-insensitive) is applied when
the forum has available tags, else the post stays untagged. -/
def resolveTags (tags : List ForumTag) (tagName : Option String) : Except String (List Nat) :=
  match tagName with
  | some nm =>
    match tags.find? (fun t => jsToLower t.name == jsToLower nm) with
    | some t => Except.ok [t.tagId]
    | none =>
      Except.error ("Tag \"" ++ nm ++ "\" not found on the forum. Available tags: " ++
        (if joinComma (tags.map ForumTag.name) = "" then "(none)"
         else joinComma (tags.map ForumTag.name)))
  | none =>
    if 0 < tags.length then
      match tags.find? (fun t => jsToLower t.name == "migrated") with
      | some t => Except.ok [t.tagId]
      | none => Except.ok []
    else Except.ok []

/-- `name.replace(/[-_]/g, ' ')` (migrator.js line 103). -/
def replaceSeps (s : String) : String :=
  ⟨s.data.map (fun c => if c = '-' ∨ c = '_' then ' ' else c)⟩

/-- A JavaScript word character (`\w`). -/
def isWordChar (c : Char) : Bool := c.isAlphanum || c = '_'

/-- Uppercase every character that starts a word (`replace(/\b\w/g, c =>
c.toUpperCase())`, migrator.js line 104); the boolean tracks whether the
previous character was a word character. -/
def capWordsGo : Bool → List Char → List Char
  | _, [] => []
  | prevWord, c :: cs =>
    (if isWordChar c && !prevWord then c.toUpper else c) :: capWordsGo (isWordChar c) cs

/-- Default post title derived from the source channel name
(migrator.js lines 101-104). -/
def deriveTitle (name : String) : String := ⟨capWordsGo false (replaceSeps name).data⟩

/-- The messages the run will replay: the reversed pinned subset in
pins-only mode, else the full fetch (migrator.js lines 62-68). -/
def fetchedMessages (req : Request) (env : Env) : Except String (List Msg) :=
  if req.pinsOnly then env.pinnedFetch.map List.reverse else env.fetchResult

/-- `migrateChannel` (migrator.js lines 28-253): validation, fetch, tag
resolution, post creation, webhook creation, replay with guaranteed
webhook deletion, best-effort tail steps, and the returned summary. -/
def migrateChannel (req : Request) (env : Env) : RunTrace :=
  if req.sourceIsText = false then failTrace "Source must be a text channel"
  else if req.forumIsForum = false then failTrace "Target must be a forum channel"
  else if missingPerms req.perms ≠ [] then
    failTrace ("Bot is missing permissions:\n• " ++ joinSep "\n• " (missingPerms req.perms))
  else
    match fetchedMessages req env with
    | Except.error e => failTrace e
    | Except.ok msgs =>
      if msgs.isEmpty then failTrace "No messages found in the source channel."
      else
        match resolveTags req.availableTags req.tagName with
        | Except.error e => failTrace e
        | Except.ok appliedTags =>
          let title := match req.postName with
            | some t => if t = "" then deriveTitle req.sourceName else t
            | none => deriveTitle req.sourceName
          match env.threadCreate with
          | Except.error ce =>
            { outcome := Except.error
                (if ce.code = some 50001 then
                  "Bot lacks access to create posts in the forum channel."
                else "Failed to create forum post: " ++ ce.message)
              postCreated := false, webhookCreated := false, deleteCalls := 0
              appliedTags := appliedTags, sentCount := 0 }
          | Except.ok _ =>
            match env.webhookCreate with
            | Except.error we =>
              { outcome := Except.error
                  ("Failed to create webhook: " ++ we ++ ". Bot needs Manage Webhooks permission.")
                postCreated := true, webhookCreated := false, deleteCalls := 0
                appliedTags := appliedTags, sentCount := 0 }
            | Except.ok _ =>
              match replayGo env.behavior env.crashAt msgs 0 initState with
              | Except.error e =>
                -- the finally block has run webhook.delete exactly once,
                -- then the unexpected error propagates
                { outcome := Except.error e
                  postCreated := true, webhookCreated := true, deleteCalls := 1
                  appliedTags := appliedTags, sentCount := 0 }
              | Except.ok st =>
                -- finally: webhook.delete once (its own failure is swallowed);
                -- source notification and archival are best-effort
                { outcome := Except.ok
                    { postTitle := title
                      messageCount := st.messageCount
                      attachmentCount := st.attachmentCount
                      skippedCount := st.skippedCount
                      errorCount := st.errorCount }
                  postCreated := true, webhookCreated := true, deleteCalls := 1
                  appliedTags := appliedTags, sentCount := st.sentCount }

/-- Sum of the declared attachment counts of the messages whose send step
succeeds (the messages that contribute to `attachmentCount`). -/
def attachSum (beh : Nat → SendBehavior) : List Msg → Nat → Nat
  | [], _ => 0
  | m :: rest, i =>
    (if !isSkipped m && sendSucceeds (beh i) m then m.attachments.length else 0) +
      attachSum beh rest (i + 1)

/-- Number of messages whose send step succeeds (the messages counted
neither as skipped nor as errors). -/
def sentTotal (beh : Nat → SendBehavior) : List Msg → Nat → Nat
  | [], _ => 0
  | m :: rest, i =>
    (if !isSkipped m && sendSucceeds (beh i) m then 1 else 0) + sentTotal beh rest (i + 1)

/-- An attachment that yields an outgoing file: within the size cap and
successfully downloaded. -/
def goodAtt (dl : Attachment → Except String Unit) (a : Attachment) : Bool :=
  !decide (MAX_FILE_SIZE < a.size) && dlOk dl a

/-- Per-attachment warning text produced by the attachment loop (empty for a
successful download). -/
def warnStr (dl : Attachment → Except String Unit) : List Attachment → String
  | [] => ""
  | a :: rest =>
    (if MAX_FILE_SIZE < a.size then largeFileWarning a
     else match dl a with
       | Except.ok _ => ""
       | Except.error e => downloadFailWarning a e) ++ warnStr dl rest

-- ── Concrete fixtures used by witnesses and counterexamples ──────────────────

/-- A plain text message. -/
def msgHello : Msg := { id := 1, content := "hello" }

/-- A message whose content is a single space: non-empty for the loop's
skip test, but nothing-to-send for the transformer. -/
def msgBlank : Msg := { id := 2, content := " " }

/-- A message whose text alone exceeds the 2000-character limit. -/
def msgLong : Msg := { id := 4, content := ⟨List.replicate 2001 'a'⟩ }

/-- A happy-path request. -/
def reqOk : Request := { postName := some "Post" }

/-- A happy-path environment delivering one plain message. -/
def envOk : Env := { fetchResult := Except.ok [msgHello] }

/-- An environment where webhook creation fails after the post was created. -/
def envWebhookFail : Env :=
  { fetchResult := Except.ok [msgHello], webhookCreate := Except.error "boom" }

/-- A destination forum carrying a tag named "Migrated" without requiring
tags, with no tag requested. -/
def reqMigratedTag : Request :=
  { postName := some "Post", availableTags := [⟨"Migrated", 1⟩], requiresTag := false }

/-- The two-tag forum of the spec's tag scenario. -/
def tags0 : List ForumTag := [⟨"Migrated", 1⟩, ⟨"Archive", 2⟩]

/-- Three messages in descending id order, as the remote returns them. -/
def msgsDesc : List Msg := [{ id := 3 }, { id := 2 }, { id := 1 }]

/-- An attachment over the 25 MiB cap. -/
def attBig : Attachment := { name := "art.png", size := 30 * 1024 * 1024 }

/-- A small attachment. -/
def attSmall : Attachment := { name := "sketch.png", size := 1024 }

/-- The result of the happy-path run on `reqOk`/`envOk`. -/
def resOk : MigrationResult :=
  { postTitle := "Post", messageCount := 1, attachmentCount := 0
    skippedCount := 0, errorCount := 0 }

-- ═════════════════════════════════════════════════════════════════════════════
--  Theorems
-- ═════════════════════════════════════════════════════════════════════════════

-- ── String helper lemmas ─────────────────────────────────────────────────────

theorem strContains_shape (p s q : String) : strContains (p ++ s ++ q) s :=
  ⟨p.data, q.data, by simp [String.data_append]⟩

theorem strContains_appendL (t big s : String) (h : strContains big s) :
    strContains (t ++ big) s := by
  obtain ⟨p, q, hd⟩ := h
  exact ⟨t.data ++ p, q, by simp [String.data_append, hd]⟩

theorem strContains_appendR (big t s : String) (h : strContains big s) :
    strContains (big ++ t) s := by
  obtain ⟨p, q, hd⟩ := h
  exact ⟨p, q ++ t.data, by simp [String.data_append, hd]⟩

theorem strContains_refl (s : String) : strContains s s :=
  ⟨[], [], by simp⟩

-- ── C7: truncation keeps the limit and the timestamp suffix ──────────────────

/-- C7: for every message whose text (with reply and sticker markers) plus
the timestamp suffix exceeds the 2000-character limit (and whose timestamp
suffix itself fits, as every real timestamp rendering does), the
transformed content has length at most the limit and still ends with the
timestamp suffix: the preceding text is truncated with room reserved for
the suffix and an ellipsis rather than the timestamp being dropped. -/
theorem truncation_keeps_suffix (m : Msg)
    (hover : MAX_CONTENT_LEN < (contentWithMarkers m).length + (timestampSuffix m).length)
    (hsane : (timestampSuffix m).length + 4 ≤ MAX_CONTENT_LEN) :
    (transformedContent m).length ≤ MAX_CONTENT_LEN ∧
    strEndsWith (transformedContent m) (timestampSuffix m) := by
  have e1 : transformedContent m =
      jsSubstring (contentWithMarkers m) (MAX_CONTENT_LEN - (timestampSuffix m).length - 4) ++
        "…" ++ timestampSuffix m := by
    rw [transformedContent, if_pos hover]
  constructor
  · have h2 : (jsSubstring (contentWithMarkers m)
        (MAX_CONTENT_LEN - (timestampSuffix m).length - 4)).length ≤
        MAX_CONTENT_LEN - (timestampSuffix m).length - 4 := by
      simp only [jsSubstring, String.length_mk, List.length_take]
      omega
    have h3 : ("…" : String).length = 1 := rfl
    rw [e1, String.length_append, String.length_append, h3]
    simp only [MAX_CONTENT_LEN] at *
    omega
  · rw [e1]
    exact ⟨(jsSubstring (contentWithMarkers m)
      (MAX_CONTENT_LEN - (timestampSuffix m).length - 4) ++ "…").data,
      by simp [String.data_append]⟩

/-- C7 witness: the truncation theorem applied to a concrete 2001-character
message. -/
theorem truncation_keeps_suffix_witness :
    (MAX_CONTENT_LEN < (contentWithMarkers msgLong).length + (timestampSuffix msgLong).length) ∧
    ((timestampSuffix msgLong).length + 4 ≤ MAX_CONTENT_LEN) ∧
    ((transformedContent msgLong).length ≤ MAX_CONTENT_LEN ∧
      strEndsWith (transformedContent msgLong) (timestampSuffix msgLong)) := by
  have h1 : msgLong.replyRef = none := rfl
  have h2 : msgLong.stickers = [] := rfl
  have hc : contentWithMarkers msgLong = msgLong.content := by
    simp [contentWithMarkers, h1, h2]
  have hlen : msgLong.content.length = 2001 := by
    show (String.mk (List.replicate 2001 'a')).length = 2001
    rw [String.length_mk, List.length_replicate]
  have hts : (timestampSuffix msgLong).length = 11 := by decide
  have hover : MAX_CONTENT_LEN <
      (contentWithMarkers msgLong).length + (timestampSuffix msgLong).length := by
    rw [hc, hlen, hts]; decide
  have hsane : (timestampSuffix msgLong).length + 4 ≤ MAX_CONTENT_LEN := by
    rw [hts]; decide
  exact ⟨hover, hsane, truncation_keeps_suffix msgLong hover hsane⟩

-- ── Step lemmas about the replay loop ────────────────────────────────────────

theorem stepMsg_messageCount (b : SendBehavior) (m : Msg) (st : LoopState) :
    (stepMsg b m st).messageCount = st.messageCount + 1 := by
  rcases b with _ | ⟨_ | _, ra, _ | _⟩ <;>
    simp only [stepMsg] <;> split_ifs <;> simp

theorem stepMsg_errorCount_le (b : SendBehavior) (m : Msg) (st : LoopState) :
    (stepMsg b m st).errorCount ≤ st.errorCount + 1 := by
  rcases b with _ | ⟨_ | _, ra, _ | _⟩ <;>
    simp only [stepMsg] <;> split_ifs <;> simp

theorem stepMsg_sentCount (b : SendBehavior) (m : Msg) (st : LoopState) :
    (stepMsg b m st).sentCount =
      st.sentCount + (if !isSkipped m && sendSucceeds b m then 1 else 0) := by
  rcases b with _ | ⟨_ | _, ra, _ | _⟩ <;>
    simp only [stepMsg, sendSucceeds, isSkipped] <;> split_ifs <;> simp_all

theorem stepMsg_attachmentCount (b : SendBehavior) (m : Msg) (st : LoopState) :
    (stepMsg b m st).attachmentCount =
      st.attachmentCount +
        (if !isSkipped m && sendSucceeds b m then m.attachments.length else 0) := by
  rcases b with _ | ⟨_ | _, ra, _ | _⟩ <;>
    simp only [stepMsg, sendSucceeds, isSkipped] <;> split_ifs <;> simp_all

theorem stepMsg_balance (b : SendBehavior) (m : Msg) (st : LoopState)
    (h : st.messageCount = st.skippedCount + st.sentCount + st.errorCount) :
    (stepMsg b m st).messageCount =
      (stepMsg b m st).skippedCount + (stepMsg b m st).sentCount +
        (stepMsg b m st).errorCount := by
  rcases b with _ | ⟨_ | _, ra, _ | _⟩ <;>
    simp only [stepMsg] <;> split_ifs <;> simp <;> omega

-- ── Loop lemmas ──────────────────────────────────────────────────────────────

theorem replayGo_balance (beh : Nat → SendBehavior) (crash : Option Nat) :
    ∀ (msgs : List Msg) (i : Nat) (st st2 : LoopState),
      replayGo beh crash msgs i st = Except.ok st2 →
      st.messageCount = st.skippedCount + st.sentCount + st.errorCount →
      st2.messageCount = st2.skippedCount + st2.sentCount + st2.errorCount := by
  intro msgs
  induction msgs with
  | nil =>
    intro i st st2 h hinv
    simp only [replayGo] at h
    cases h
    exact hinv
  | cons m rest ih =>
    intro i st st2 h hinv
    rw [replayGo] at h
    by_cases hc : crash = some i
    · simp [hc] at h
    · rw [if_neg hc] at h
      exact ih (i + 1) _ st2 h (stepMsg_balance _ _ _ hinv)

theorem replayGo_sent (beh : Nat → SendBehavior) (crash : Option Nat) :
    ∀ (msgs : List Msg) (i : Nat) (st st2 : LoopState),
      replayGo beh crash msgs i st = Except.ok st2 →
      st2.sentCount = st.sentCount + sentTotal beh msgs i := by
  intro msgs
  induction msgs with
  | nil =>
    intro i st st2 h
    simp only [replayGo] at h
    cases h
    simp [sentTotal]
  | cons m rest ih =>
    intro i st st2 h
    rw [replayGo] at h
    by_cases hc : crash = some i
    · simp [hc] at h
    · rw [if_neg hc] at h
      have := ih (i + 1) _ st2 h
      rw [this, stepMsg_sentCount]
      simp [sentTotal]
      omega

theorem replayGo_attach (beh : Nat → SendBehavior) (crash : Option Nat) :
    ∀ (msgs : List Msg) (i : Nat) (st st2 : LoopState),
      replayGo beh crash msgs i st = Except.ok st2 →
      st2.attachmentCount = st.attachmentCount + attachSum beh msgs i := by
  intro msgs
  induction msgs with
  | nil =>
    intro i st st2 h
    simp only [replayGo] at h
    cases h
    simp [attachSum]
  | cons m rest ih =>
    intro i st st2 h
    rw [replayGo] at h
    by_cases hc : crash = some i
    · simp [hc] at h
    · rw [if_neg hc] at h
      have := ih (i + 1) _ st2 h
      rw [this, stepMsg_attachmentCount]
      simp [attachSum]
      omega

-- ── C3: a nothing-to-send message is not counted as skipped ──────────────────

/-- C3 counterexample: for the whitespace-only message `msgBlank` the
transformer signals nothing-to-send, yet the replay loop leaves
`skippedCount` at 0 and tallies the message with the successfully sent
ones — the claim's "incrementing skippedCount" is false on the code. -/
theorem nothing_to_send_not_skipped_counterexample :
    nothingToSend msgBlank = true ∧
    msgBlank.system = false ∧ isEmptyMsg msgBlank = false ∧
    replayGo (fun _ => SendBehavior.ok) none [msgBlank] 0 initState =
      Except.ok { messageCount := 1, sentCount := 1, skippedCount := 0 } := by
  decide

/-- C3 (amended): a non-system, non-empty message whose transformed content
is only the timestamp suffix, with no attachments and no embeds, makes the
transformer signal nothing-to-send (`sendMigratedMessage` yields no
payload and `webhook.send` is never called), and the orchestrator counts
it as a message processed without error: `messageCount` increments,
`sentCount` increments, `attachmentCount` grows by its (empty) attachment
count, while `skippedCount` and `errorCount` are unchanged. -/
theorem nothing_to_send_step (b : SendBehavior) (m : Msg) (st : LoopState)
    (hsys : m.system = false) (hempty : isEmptyMsg m = false)
    (hn : nothingToSend m = true) :
    stepMsg b m st =
      { st with attachmentCount := st.attachmentCount + m.attachments.length
                sentCount := st.sentCount + 1
                messageCount := st.messageCount + 1 } ∧
    (∀ dl, sendMigratedMessage dl m = none) := by
  constructor
  · simp [stepMsg, hsys, hempty, hn]
  · intro dl
    simp [sendMigratedMessage, hn]

/-- C3 witness: the amended statement at the concrete whitespace-only
message. -/
theorem nothing_to_send_step_witness :
    (msgBlank.system = false ∧ isEmptyMsg msgBlank = false ∧
      nothingToSend msgBlank = true) ∧
    stepMsg SendBehavior.ok msgBlank initState =
      { initState with
          attachmentCount := initState.attachmentCount + msgBlank.attachments.length
          sentCount := initState.sentCount + 1
          messageCount := initState.messageCount + 1 } ∧
    sendMigratedMessage (fun _ => Except.ok ()) msgBlank = none := by
  have h := nothing_to_send_step SendBehavior.ok msgBlank initState
    (by decide) (by decide) (by decide)
  exact ⟨⟨by decide, by decide, by decide⟩, h.1, h.2 _⟩

-- ── C8: rate-limit retry policy ──────────────────────────────────────────────

/-- C8: for a sendable message (not skipped, not nothing-to-send): a
successful first send makes one `webhook.send` attempt and leaves
`errorCount` and the rate-limit sleeps unchanged; a rate-limited first
send sleeps exactly the resolved retry interval (the signaled seconds in
ms, defaulting to 5000 ms when none is given, never below the signaled
interval) plus the 500 ms safety margin, then retries exactly once — a
successful retry leaves `errorCount` unchanged and a second failure adds
exactly 1; a non-rate-limit failure adds exactly 1 to `errorCount` with a
single attempt and no sleep. -/
theorem rate_limit_retry_policy (b : SendBehavior) (m : Msg) (st : LoopState)
    (hsys : m.system = false) (hempty : isEmptyMsg m = false)
    (hn : nothingToSend m = false) :
    (b = SendBehavior.ok →
      (stepMsg b m st).errorCount = st.errorCount ∧
      (stepMsg b m st).sendAttempts = st.sendAttempts + 1 ∧
      (stepMsg b m st).rlSleeps = st.rlSleeps) ∧
    (∀ ra r, b = SendBehavior.err true ra r →
      (stepMsg b m st).rlSleeps = st.rlSleeps ++ [retryMs ra + 500] ∧
      (stepMsg b m st).sendAttempts = st.sendAttempts + 2 ∧
      (ra = none → retryMs ra = 5000) ∧
      (∀ n, ra = some n → 1000 * n ≤ retryMs ra) ∧
      (r = true → (stepMsg b m st).errorCount = st.errorCount) ∧
      (r = false → (stepMsg b m st).errorCount = st.errorCount + 1)) ∧
    (∀ ra r, b = SendBehavior.err false ra r →
      (stepMsg b m st).errorCount = st.errorCount + 1 ∧
      (stepMsg b m st).sendAttempts = st.sendAttempts + 1 ∧
      (stepMsg b m st).rlSleeps = st.rlSleeps) := by
  refine ⟨?_, ?_, ?_⟩
  · intro hb
    subst hb
    simp [stepMsg, hsys, hempty, hn]
  · intro ra r hb
    subst hb
    refine ⟨?_, ?_, ?_, ?_, ?_, ?_⟩ <;>
      first
        | (intro hr; subst hr; simp [stepMsg, hsys, hempty, hn])
        | (cases r <;> simp [stepMsg, hsys, hempty, hn])
        | (intro n hn2; subst hn2; simp [retryMs]; split_ifs <;> omega)
        | (intro hra; subst hra; rfl)
  · intro ra r hb
    subst hb
    simp [stepMsg, hsys, hempty, hn]

/-- C8 witness: the retry policy applied to a rate-limited send of a concrete
message with a signaled 7-second retry whose retry succeeds. -/
theorem rate_limit_retry_policy_witness :
    (msgHello.system = false ∧ isEmptyMsg msgHello = false ∧
      nothingToSend msgHello = false) ∧
    (stepMsg (SendBehavior.err true (some 7) true) msgHello initState).rlSleeps =
      initState.rlSleeps ++ [retryMs (some 7) + 500] ∧
    (stepMsg (SendBehavior.err true (some 7) true) msgHello initState).errorCount =
      initState.errorCount := by
  have h := rate_limit_retry_policy (SendBehavior.err true (some 7) true) msgHello initState
    (by decide) (by decide) (by decide)
  have h2 := h.2.1 (some 7) true rfl
  exact ⟨⟨by decide, by decide, by decide⟩, h2.1, h2.2.2.2.2.1 rfl⟩

-- ── Characterization of a successful run ─────────────────────────────────────

theorem migrateChannel_ok_spec (req : Request) (env : Env) (res : MigrationResult)
    (h : (migrateChannel req env).outcome = Except.ok res) :
    ∃ msgs st, fetchedMessages req env = Except.ok msgs ∧
      replayGo env.behavior env.crashAt msgs 0 initState = Except.ok st ∧
      res.messageCount = st.messageCount ∧
      res.attachmentCount = st.attachmentCount ∧
      res.skippedCount = st.skippedCount ∧
      res.errorCount = st.errorCount := by
  by_cases h1 : req.sourceIsText = false
  · simp [migrateChannel, h1, failTrace] at h
  by_cases h2 : req.forumIsForum = false
  · simp [migrateChannel, h1, h2, failTrace] at h
  by_cases h3 : missingPerms req.perms = []
  case neg => simp [migrateChannel, h1, h2, h3, failTrace] at h
  rcases hf : fetchedMessages req env with e | msgs
  · simp [migrateChannel, h1, h2, h3, hf, failTrace] at h
  by_cases h4 : msgs.isEmpty
  · simp [migrateChannel, h1, h2, h3, hf, h4, failTrace] at h
  rcases ht : resolveTags req.availableTags req.tagName with e | tags
  · simp [migrateChannel, h1, h2, h3, hf, h4, ht, failTrace] at h
  rcases hc : env.threadCreate with ce | u
  · simp [migrateChannel, h1, h2, h3, hf, h4, ht, hc, failTrace] at h
  rcases hw : env.webhookCreate with we | u2
  · simp [migrateChannel, h1, h2, h3, hf, h4, ht, hc, hw, failTrace] at h
  rcases hr : replayGo env.behavior env.crashAt msgs 0 initState with e | st
  · simp [migrateChannel, h1, h2, h3, hf, h4, ht, hc, hw, hr, failTrace] at h
  · simp [migrateChannel, h1, h2, h3, hf, h4, ht, hc, hw, hr, failTrace] at h
    exact ⟨msgs, st, rfl, hr, by simp [← h]⟩

-- ── C4: counter balance of a returned MigrationResult ────────────────────────

/-- C4: every run that returns a MigrationResult satisfies
`messageCount = skippedCount + (messages whose send step succeeded) +
errorCount` (system and completely empty messages count as skipped while
still counting toward messageCount, by the definition of `stepMsg`), and
each message contributes exactly 1 to messageCount and at most 1 to
errorCount. -/
theorem counts_balance (req : Request) (env : Env) (res : MigrationResult)
    (h : (migrateChannel req env).outcome = Except.ok res) :
    (∃ msgs, fetchedMessages req env = Except.ok msgs ∧
      res.messageCount = res.skippedCount + sentTotal env.behavior msgs 0 + res.errorCount) ∧
    (∀ b m st, (stepMsg b m st).errorCount ≤ st.errorCount + 1 ∧
      (stepMsg b m st).messageCount = st.messageCount + 1) := by
  obtain ⟨msgs, st, hf, hr, e1, e2, e3, e4⟩ := migrateChannel_ok_spec req env res h
  refine ⟨⟨msgs, hf, ?_⟩,
    fun b m st => ⟨stepMsg_errorCount_le b m st, stepMsg_messageCount b m st⟩⟩
  have hbal := replayGo_balance env.behavior env.crashAt msgs 0 initState st hr
    (by simp [initState])
  have hsent := replayGo_sent env.behavior env.crashAt msgs 0 initState st hr
  simp [initState] at hsent
  omega

/-- C4 witness: the balance at the concrete happy-path run. -/
theorem counts_balance_witness :
    (migrateChannel reqOk envOk).outcome = Except.ok resOk ∧
    (∃ msgs, fetchedMessages reqOk envOk = Except.ok msgs ∧
      resOk.messageCount = resOk.skippedCount + sentTotal envOk.behavior msgs 0 +
        resOk.errorCount) :=
  ⟨by decide, (counts_balance reqOk envOk resOk (by decide)).1⟩

-- ── C10: attachment accounting ───────────────────────────────────────────────

/-- C10: in every returned MigrationResult, `attachmentCount` is the sum of
the full declared attachment counts of exactly the messages whose send
step (first attempt or the single rate-limit retry) succeeded; the
increment is the message's declared `attachments.size`, independent of how
many files the transformer actually packaged (oversized, failed-download
and over-the-cap attachments included), and skipped or errored messages
contribute nothing. -/
theorem attachment_accounting (req : Request) (env : Env) (res : MigrationResult)
    (h : (migrateChannel req env).outcome = Except.ok res) :
    (∃ msgs, fetchedMessages req env = Except.ok msgs ∧
      res.attachmentCount = attachSum env.behavior msgs 0) ∧
    (∀ b m st, (stepMsg b m st).attachmentCount =
      st.attachmentCount +
        (if !isSkipped m && sendSucceeds b m then m.attachments.length else 0)) := by
  obtain ⟨msgs, st, hf, hr, e1, e2, e3, e4⟩ := migrateChannel_ok_spec req env res h
  refine ⟨⟨msgs, hf, ?_⟩, stepMsg_attachmentCount⟩
  have hat := replayGo_attach env.behavior env.crashAt msgs 0 initState st hr
  simp [initState] at hat
  omega

/-- C10 witness: attachment accounting at the concrete happy-path run. -/
theorem attachment_accounting_witness :
    (migrateChannel reqOk envOk).outcome = Except.ok resOk ∧
    (∃ msgs, fetchedMessages reqOk envOk = Except.ok msgs ∧
      resOk.attachmentCount = attachSum envOk.behavior msgs 0) :=
  ⟨by decide, (attachment_accounting reqOk envOk resOk (by decide)).1⟩

-- ── C1 / C2: throw sites and webhook cleanup ─────────────────────────────────

theorem replayGo_none_ok (beh : Nat → SendBehavior) :
    ∀ (msgs : List Msg) (i : Nat) (st : LoopState),
      ∃ st2, replayGo beh none msgs i st = Except.ok st2 := by
  intro msgs
  induction msgs with
  | nil => intro i st; exact ⟨st, rfl⟩
  | cons m rest ih =>
    intro i st
    simpa [replayGo] using ih (i + 1) (stepMsg (beh i) m st)

/-- C1 counterexample: with everything valid but webhook creation failing,
the run throws (propagates "Failed to create webhook: ...") after the
destination post has already been created — the claim that no execution
path throws after post creation, in particular not webhook-creation
failure, is false on the code. -/
theorem throw_after_post_counterexample :
    (migrateChannel reqOk envWebhookFail).postCreated = true ∧
    (migrateChannel reqOk envWebhookFail).outcome =
      Except.error "Failed to create webhook: boom. Bot needs Manage Webhooks permission." := by
  decide

/-- C1 (amended): a run either returns a MigrationResult or throws a single
fatal error, and — absent an injected crash during replay — the only
execution path that throws after the destination post has been created is
failure of webhook (send-identity proxy) creation, whose error the run
does propagate; every other fatal error is thrown before any post
existed. -/
theorem throw_after_post_only_webhook (req : Request) (env : Env)
    (hcrash : env.crashAt = none) (e : String)
    (h : (migrateChannel req env).outcome = Except.error e)
    (hpost : (migrateChannel req env).postCreated = true) :
    ∃ we, env.webhookCreate = Except.error we ∧
      e = "Failed to create webhook: " ++ we ++ ". Bot needs Manage Webhooks permission." := by
  by_cases h1 : req.sourceIsText = false
  · simp [migrateChannel, h1, failTrace] at hpost
  by_cases h2 : req.forumIsForum = false
  · simp [migrateChannel, h1, h2, failTrace] at hpost
  by_cases h3 : missingPerms req.perms = []
  case neg => simp [migrateChannel, h1, h2, h3, failTrace] at hpost
  rcases hf : fetchedMessages req env with e2 | msgs
  · simp [migrateChannel, h1, h2, h3, hf, failTrace] at hpost
  by_cases h4 : msgs.isEmpty
  · simp [migrateChannel, h1, h2, h3, hf, h4, failTrace] at hpost
  rcases ht : resolveTags req.availableTags req.tagName with e2 | tags
  · simp [migrateChannel, h1, h2, h3, hf, h4, ht, failTrace] at hpost
  rcases hc : env.threadCreate with ce | u
  · simp [migrateChannel, h1, h2, h3, hf, h4, ht, hc, failTrace] at hpost
  rcases hw : env.webhookCreate with we | u2
  · refine ⟨we, rfl, ?_⟩
    simp [migrateChannel, h1, h2, h3, hf, h4, ht, hc, hw, failTrace] at h
    exact h.symm
  rcases hr : replayGo env.behavior env.crashAt msgs 0 initState with e2 | st
  · rw [hcrash] at hr
    obtain ⟨st2, hok⟩ := replayGo_none_ok env.behavior msgs 0 initState
    rw [hok] at hr
    cases hr
  · simp [migrateChannel, h1, h2, h3, hf, h4, ht, hc, hw, hr, failTrace] at h

/-- C1 witness: the amended statement at the concrete run whose webhook
creation fails. -/
theorem throw_after_post_only_webhook_witness :
    envWebhookFail.crashAt = none ∧
    (migrateChannel reqOk envWebhookFail).outcome =
      Except.error "Failed to create webhook: boom. Bot needs Manage Webhooks permission." ∧
    (migrateChannel reqOk envWebhookFail).postCreated = true ∧
    (∃ we, envWebhookFail.webhookCreate = Except.error we ∧
      "Failed to create webhook: boom. Bot needs Manage Webhooks permission." =
        "Failed to create webhook: " ++ we ++ ". Bot needs Manage Webhooks permission.") :=
  ⟨rfl, by decide, by decide,
    throw_after_post_only_webhook reqOk envWebhookFail rfl _ (by decide) (by decide)⟩

/-- C2: every run in which the webhook (send-identity proxy) was created
invokes `webhook.delete` exactly once before the run ends — whether the
replay loop completes normally or is aborted by an injected crash — and a
failure of the deletion call itself has no effect on the run's outcome
(it is swallowed, never propagated). -/
theorem webhook_cleanup (req : Request) (env : Env)
    (h : (migrateChannel req env).webhookCreated = true) :
    (migrateChannel req env).deleteCalls = 1 ∧
    (∀ b, migrateChannel req { env with webhookDeleteFails := b } =
      migrateChannel req env) := by
  refine ⟨?_, fun b => rfl⟩
  by_cases h1 : req.sourceIsText = false
  · simp [migrateChannel, h1, failTrace] at h
  by_cases h2 : req.forumIsForum = false
  · simp [migrateChannel, h1, h2, failTrace] at h
  by_cases h3 : missingPerms req.perms = []
  case neg => simp [migrateChannel, h1, h2, h3, failTrace] at h
  rcases hf : fetchedMessages req env with e2 | msgs
  · simp [migrateChannel, h1, h2, h3, hf, failTrace] at h
  by_cases h4 : msgs.isEmpty
  · simp [migrateChannel, h1, h2, h3, hf, h4, failTrace] at h
  rcases ht : resolveTags req.availableTags req.tagName with e2 | tags
  · simp [migrateChannel, h1, h2, h3, hf, h4, ht, failTrace] at h
  rcases hc : env.threadCreate with ce | u
  · simp [migrateChannel, h1, h2, h3, hf, h4, ht, hc, failTrace] at h
  rcases hw : env.webhookCreate with we | u2
  · simp [migrateChannel, h1, h2, h3, hf, h4, ht, hc, hw, failTrace] at h
  rcases hr : replayGo env.behavior env.crashAt msgs 0 initState with e2 | st <;>
    simp [migrateChannel, h1, h2, h3, hf, h4, ht, hc, hw, hr, failTrace]

/-- C2 witness: cleanup at the concrete happy-path run. -/
theorem webhook_cleanup_witness :
    (migrateChannel reqOk envOk).webhookCreated = true ∧
    (migrateChannel reqOk envOk).deleteCalls = 1 ∧
    migrateChannel reqOk { envOk with webhookDeleteFails := true } =
      migrateChannel reqOk envOk :=
  ⟨by decide, (webhook_cleanup reqOk envOk (by decide)).1,
    (webhook_cleanup reqOk envOk (by decide)).2 true⟩

-- ── C6: tag resolution ───────────────────────────────────────────────────────

theorem strContains_empty (big : String) : strContains big "" :=
  ⟨big.data, [], by simp⟩

theorem joinComma_contains {l : List String} {x : String} (hx : x ∈ l) :
    strContains (joinComma l) x := by
  induction l with
  | nil => cases hx
  | cons a t ih =>
    cases t with
    | nil =>
      have hxa : x = a := by simpa using hx
      subst hxa
      exact strContains_refl x
    | cons b t2 =>
      have hj : joinComma (a :: b :: t2) = a ++ ", " ++ joinComma (b :: t2) := rfl
      rw [hj]
      rcases List.mem_cons.mp hx with h | h
      · subst h
        exact ⟨[], (", ").data ++ (joinComma (b :: t2)).data, by simp [String.data_append]⟩
      · exact strContains_appendL _ _ _ (ih h)

theorem joinComma_empty_mem {l : List String} (h : joinComma l = "") :
    ∀ x ∈ l, x = "" := by
  induction l with
  | nil => simp
  | cons a t ih =>
    cases t with
    | nil =>
      intro x hx
      have hxa : x = a := by simpa using hx
      subst hxa
      simpa [joinComma, joinSep] using h
    | cons b t2 =>
      exfalso
      have hj : joinComma (a :: b :: t2) = a ++ ", " ++ joinComma (b :: t2) := rfl
      rw [hj] at h
      have hd : (a ++ ", " ++ joinComma (b :: t2)).data = [] := by
        rw [h]
      rw [String.data_append, String.data_append] at hd
      have h5 := List.append_eq_nil.mp hd
      have h6 := List.append_eq_nil.mp h5.1
      exact absurd h6.2 (by decide)

/-- C6 counterexample: a destination forum that does not require tags but
carries a tag named "Migrated", with no tag requested, still gets the
fallback tag applied at post creation — the claim that the fallback is
applied only when the destination requires at least one tag is false on
the code (the code tests `availableTags.length > 0`, never the
tag-required setting). -/
theorem tag_fallback_counterexample :
    reqMigratedTag.requiresTag = false ∧ reqMigratedTag.tagName = none ∧
    (migrateChannel reqMigratedTag envOk).appliedTags = [1] ∧
    ([1] : List Nat) ≠ [] := by
  decide

/-- C6 (amended): an explicit tag name is matched case-insensitively and
exactly against the destination's available tags; when no match exists the
run fails before any post is created, with an error containing every
available tag name.  With no tag name given, the fallback to a tag
literally named "migrated" (case-insensitive) is applied whenever such a
tag exists among the available tags — regardless of whether the
destination requires tags — and otherwise the post is created untagged. -/
theorem tag_resolution (tags : List ForumTag) (nm : String) :
    (∀ t, tags.find? (fun t2 => jsToLower t2.name == jsToLower nm) = some t →
      resolveTags tags (some nm) = Except.ok [t.tagId]) ∧
    ((∀ t ∈ tags, ¬ jsToLower t.name = jsToLower nm) →
      ∃ e, resolveTags tags (some nm) = Except.error e ∧
        ∀ t ∈ tags, strContains e t.name) ∧
    (∀ t, tags.find? (fun t2 => jsToLower t2.name == "migrated") = some t →
      resolveTags tags none = Except.ok [t.tagId]) ∧
    ((∀ t ∈ tags, ¬ jsToLower t.name = "migrated") →
      resolveTags tags none = Except.ok []) ∧
    (∀ (req : Request) (env : Env) e,
      resolveTags req.availableTags req.tagName = Except.error e →
      (migrateChannel req env).postCreated = false ∧
      ∃ e2, (migrateChannel req env).outcome = Except.error e2) := by
  refine ⟨?_, ?_, ?_, ?_, ?_⟩
  · intro t h
    simp [resolveTags, h]
  · intro hall
    have hfind : tags.find? (fun t2 => jsToLower t2.name == jsToLower nm) = none := by
      rw [List.find?_eq_none]
      intro x hx
      simpa using hall x hx
    refine ⟨"Tag \"" ++ nm ++ "\" not found on the forum. Available tags: " ++
      (if joinComma (tags.map ForumTag.name) = "" then "(none)"
       else joinComma (tags.map ForumTag.name)), by simp [resolveTags, hfind], ?_⟩
    intro t ht
    by_cases hj : joinComma (tags.map ForumTag.name) = ""
    · have hn : t.name = "" := joinComma_empty_mem hj t.name (List.mem_map_of_mem _ ht)
      rw [hn, if_pos hj]
      exact strContains_empty _
    · rw [if_neg hj]
      exact strContains_appendL _ _ _
        (joinComma_contains (List.mem_map_of_mem _ ht))
  · intro t h
    have hpos : 0 < tags.length :=
      List.length_pos.mpr (List.ne_nil_of_mem (List.mem_of_find?_eq_some h))
    simp [resolveTags, hpos, h]
  · intro hall
    have hfind : tags.find? (fun t2 => jsToLower t2.name == "migrated") = none := by
      rw [List.find?_eq_none]
      intro x hx
      simpa using hall x hx
    simp [resolveTags, hfind]
  · intro req env e hres
    by_cases h1 : req.sourceIsText = false
    · constructor <;> simp [migrateChannel, h1, failTrace]
    by_cases h2 : req.forumIsForum = false
    · constructor <;> simp [migrateChannel, h1, h2, failTrace]
    by_cases h3 : missingPerms req.perms = []
    case neg => constructor <;> simp [migrateChannel, h1, h2, h3, failTrace]
    rcases hf2 : fetchedMessages req env with e3 | msgs
    · constructor <;> simp [migrateChannel, h1, h2, h3, hf2, failTrace]
    by_cases h4 : msgs.isEmpty
    · constructor <;> simp [migrateChannel, h1, h2, h3, hf2, h4, failTrace]
    · constructor <;> simp [migrateChannel, h1, h2, h3, hf2, h4, hres, failTrace]

/-- C6 witness: the spec's scenario — tag "Foo" requested against available
tags ["Migrated", "Archive"] — fails with an error containing both names. -/
theorem tag_resolution_witness :
    (∀ t ∈ tags0, ¬ jsToLower t.name = jsToLower "Foo") ∧
    (∃ e, resolveTags tags0 (some "Foo") = Except.error e ∧
      ∀ t ∈ tags0, strContains e t.name) :=
  ⟨by decide, (tag_resolution tags0 "Foo").2.1 (by decide)⟩

-- ── C9: attachment transfer under size and count constraints ─────────────────

theorem buildFiles_spec (dl : Attachment → Except String Unit) :
    ∀ (atts : List Attachment) (st : FilesState),
      (atts.foldl (attachStep dl) st).files =
        st.files ++ (atts.filter (goodAtt dl)).map mkOutFile ∧
      (atts.foldl (attachStep dl) st).content = st.content ++ warnStr dl atts := by
  intro atts
  induction atts with
  | nil =>
    intro st
    constructor
    · simp
    · show st.content = st.content ++ warnStr dl []
      rw [warnStr]
      exact (String.ext (by simp [String.data_append]))
  | cons a rest ih =>
    intro st
    have hfold : (a :: rest).foldl (attachStep dl) st = rest.foldl (attachStep dl) (attachStep dl st a) := rfl
    rw [hfold]
    by_cases hs : MAX_FILE_SIZE < a.size
    · have ha : attachStep dl st a =
          { files := st.files, content := st.content ++ largeFileWarning a } := by
        simp [attachStep, hs]
      have hw : warnStr dl (a :: rest) = largeFileWarning a ++ warnStr dl rest := by
        rw [warnStr, if_pos hs]
      have hg : goodAtt dl a = false := by simp [goodAtt, hs]
      refine ⟨?_, ?_⟩
      · rw [ha, (ih _).1]
        simp [hg]
      · rw [ha, (ih _).2, hw]
        exact String.ext (by simp [String.data_append])
    · cases hdl : dl a with
      | ok u =>
        have ha : attachStep dl st a =
            { files := st.files ++ [mkOutFile a], content := st.content } := by
          simp [attachStep, hs, hdl]
        have hw : warnStr dl (a :: rest) = "" ++ warnStr dl rest := by
          rw [warnStr, if_neg hs, hdl]
        have hg : goodAtt dl a = true := by simp [goodAtt, hs, dlOk, hdl]
        refine ⟨?_, ?_⟩
        · rw [ha, (ih _).1]
          simp [hg]
        · rw [ha, (ih _).2, hw]
          exact String.ext (by simp [String.data_append])
      | error e =>
        have ha : attachStep dl st a =
            { files := st.files, content := st.content ++ downloadFailWarning a e } := by
          simp [attachStep, hs, hdl]
        have hw : warnStr dl (a :: rest) = downloadFailWarning a e ++ warnStr dl rest := by
          rw [warnStr, if_neg hs, hdl]
        have hg : goodAtt dl a = false := by simp [goodAtt, hs, dlOk, hdl]
        refine ⟨?_, ?_⟩
        · rw [ha, (ih _).1]
          simp [hg]
        · rw [ha, (ih _).2, hw]
          exact String.ext (by simp [String.data_append])

theorem warnStr_contains (dl : Attachment → Except String Unit) :
    ∀ (atts : List Attachment), ∀ a ∈ atts,
      (MAX_FILE_SIZE < a.size → strContains (warnStr dl atts) (largeFileWarning a)) ∧
      (∀ e, a.size ≤ MAX_FILE_SIZE → dl a = Except.error e →
        strContains (warnStr dl atts) (downloadFailWarning a e)) := by
  intro atts
  induction atts with
  | nil => simp
  | cons b rest ih =>
    intro a ha
    rcases List.mem_cons.mp ha with h | h
    · subst h
      constructor
      · intro hs
        rw [warnStr, if_pos hs]
        exact strContains_appendR _ _ _ (strContains_refl _)
      · intro e hle hdl
        rw [warnStr, if_neg (by omega), hdl]
        exact strContains_appendR _ _ _ (strContains_refl _)
    · have hrest := ih a h
      constructor
      · intro hs
        rw [warnStr]
        exact strContains_appendL _ _ _ (hrest.1 hs)
      · intro e hle hdl
        rw [warnStr]
        exact strContains_appendL _ _ _ (hrest.2 e hle hdl)

/-- C9: the transformer attaches at most 10 outgoing files, and the final
file list is exactly the first 10 of the files built from the attachments
that are within the 25 MiB cap and downloaded successfully; an oversized
attachment contributes no file and appends a warning naming the file and
its formatted size; a failed download contributes no file and appends a
warning naming the file and the failure reason (the message itself still
goes out); and when more than 10 files were built, the surplus is dropped
with a warning counting the omitted files. -/
theorem attachment_handling (dl : Attachment → Except String Unit) (c0 : String)
    (atts : List Attachment) :
    (applyFileCap (buildFiles dl c0 atts)).1.length ≤ 10 ∧
    (applyFileCap (buildFiles dl c0 atts)).1 =
      ((atts.filter (goodAtt dl)).map mkOutFile).take 10 ∧
    (∀ a ∈ atts, MAX_FILE_SIZE < a.size →
      strContains (applyFileCap (buildFiles dl c0 atts)).2 (largeFileWarning a) ∧
      strContains (largeFileWarning a) a.name ∧
      strContains (largeFileWarning a) (formatSize a.size)) ∧
    (∀ a ∈ atts, ∀ e, a.size ≤ MAX_FILE_SIZE → dl a = Except.error e →
      strContains (applyFileCap (buildFiles dl c0 atts)).2 (downloadFailWarning a e) ∧
      strContains (downloadFailWarning a e) a.name ∧
      strContains (downloadFailWarning a e) e) ∧
    (10 < (atts.filter (goodAtt dl)).length →
      strContains (applyFileCap (buildFiles dl c0 atts)).2
        (fileCapWarning ((atts.filter (goodAtt dl)).map mkOutFile).length)) := by
  obtain ⟨hfl, hct⟩ := buildFiles_spec dl atts { files := [], content := c0 }
  have hfl2 : (buildFiles dl c0 atts).files = (atts.filter (goodAtt dl)).map mkOutFile := by
    rw [buildFiles, hfl]; simp
  have hct2 : (buildFiles dl c0 atts).content = c0 ++ warnStr dl atts := hct
  have hcontains : ∀ w, strContains (warnStr dl atts) w →
      strContains (applyFileCap (buildFiles dl c0 atts)).2 w := by
    intro w hw
    rw [applyFileCap]
    split
    · exact strContains_appendR _ _ _ (by rw [hct2]; exact strContains_appendL _ _ _ hw)
    · rw [hct2]; exact strContains_appendL _ _ _ hw
  refine ⟨?_, ?_, ?_, ?_, ?_⟩
  · by_cases hcap : 10 < (buildFiles dl c0 atts).files.length
    · rw [applyFileCap, if_pos hcap]
      exact List.length_take_le 10 _
    · rw [applyFileCap, if_neg hcap]
      exact Nat.le_of_not_lt hcap
  · by_cases hcap : 10 < (buildFiles dl c0 atts).files.length
    · rw [applyFileCap, if_pos hcap, hfl2]
    · rw [applyFileCap, if_neg hcap, hfl2]
      rw [hfl2] at hcap
      exact (List.take_of_length_le (Nat.le_of_not_lt hcap)).symm
  · intro a ha hs
    exact ⟨hcontains _ ((warnStr_contains dl atts a ha).1 hs),
      strContains_shape _ _ _,
      ⟨("\n-# ⚠️ Skipped large file: **" ++ a.name ++ "** (").data, (")").data,
        by simp [largeFileWarning, String.data_append]⟩⟩
  · intro a ha e hle hdl
    exact ⟨hcontains _ ((warnStr_contains dl atts a ha).2 e hle hdl),
      strContains_shape _ _ _,
      ⟨("\n-# ⚠️ Could not download: **" ++ a.name ++ "** — ").data, [],
        by simp [downloadFailWarning, String.data_append]⟩⟩
  · intro hlen
    have hcap : 10 < (buildFiles dl c0 atts).files.length := by
      rw [hfl2]
      simpa using hlen
    rw [applyFileCap, if_pos hcap, hfl2, hct2]
    exact ⟨(c0 ++ warnStr dl atts).data, [], by simp [String.data_append]⟩

/-- C9 witness: the spec's scenario — one 30 MiB attachment yields zero
outgoing files and a "Skipped large file" warning naming it. -/
theorem attachment_handling_witness :
    (applyFileCap (buildFiles (fun _ => Except.ok ()) "" [attBig])).1 = [] ∧
    MAX_FILE_SIZE < attBig.size ∧
    strContains (applyFileCap (buildFiles (fun _ => Except.ok ()) "" [attBig])).2
      (largeFileWarning attBig) ∧
    strContains (largeFileWarning attBig) attBig.name := by
  have h := attachment_handling (fun _ => Except.ok ()) "" [attBig]
  have h2 := h.2.2.1 attBig (by simp) (by decide)
  exact ⟨by decide, by decide, h2.1, h2.2.1⟩

-- ── C5: fetch pagination ─────────────────────────────────────────────────────

theorem dropWhile_append_of {α : Type} (p : α → Bool) (pre post : List α)
    (h1 : ∀ a ∈ pre, p a = true) (h2 : ∀ a ∈ post, p a = false) :
    (pre ++ post).dropWhile p = post := by
  induction pre with
  | nil =>
    cases post with
    | nil => rfl
    | cons b bs =>
      simp only [List.nil_append, List.dropWhile_cons]
      rw [h2 b (by simp)]
      simp
  | cons a as ih =>
    have hpa : p a = true := h1 a (by simp)
    simp only [List.cons_append, List.dropWhile_cons, hpa]
    simpa using ih (fun x hx => h1 x (by simp [hx]))

theorem fetchPage_after (msgs pre1 : List Msg) (m0 : Msg) (post : List Msg)
    (hdesc : msgs.Pairwise (fun a b => b.id < a.id))
    (hsplit : msgs = (pre1 ++ [m0]) ++ post) :
    fetchPage msgs (some m0.id) = post.take 100 := by
  subst hsplit
  obtain ⟨hp1, hp2, hcross⟩ := List.pairwise_append.mp hdesc
  obtain ⟨hq1, hq2, hqcross⟩ := List.pairwise_append.mp hp1
  have h1 : ∀ a ∈ pre1 ++ [m0], decide (m0.id ≤ a.id) = true := by
    intro a ha
    rcases List.mem_append.mp ha with h | h
    · have := hqcross a h m0 (by simp)
      simp
      omega
    · have : a = m0 := by simpa using h
      subst this
      simp
  have h2 : ∀ a ∈ post, decide (m0.id ≤ a.id) = false := by
    intro b hb
    have := hcross m0 (by simp) b hb
    simp
    omega
  show ((pre1 ++ [m0] ++ post).dropWhile fun m => decide (m0.id ≤ m.id)).take 100 = post.take 100
  rw [dropWhile_append_of _ _ _ h1 h2]

theorem dropLast_append_of_getLast? {α : Type} {l : List α} {b : α}
    (h : l.getLast? = some b) : l.dropLast ++ [b] = l := by
  cases l with
  | nil => simp at h
  | cons x xs =>
    have hne : x :: xs ≠ [] := by simp
    have h2 : (x :: xs).getLast? = some ((x :: xs).getLast hne) :=
      List.getLast?_eq_getLast _ hne
    rw [h] at h2
    injection h2 with h3
    rw [h3]
    exact List.dropLast_append_getLast hne

theorem fetchAllGo_complete (msgs : List Msg)
    (hdesc : msgs.Pairwise (fun a b => b.id < a.id)) :
    ∀ (fuel : Nat) (pre1 : List Msg) (m0 : Msg) (post : List Msg),
      msgs = (pre1 ++ [m0]) ++ post → post.length < fuel →
      fetchAllGo msgs fuel (some m0.id) (pre1 ++ [m0]) = some msgs := by
  intro fuel
  induction fuel with
  | zero => intro pre1 m0 post h hlen; omega
  | succ n ih =>
    intro pre1 m0 post hsplit hlen
    have hpage : fetchPage msgs (some m0.id) = post.take 100 :=
      fetchPage_after msgs pre1 m0 post hdesc hsplit
    cases post with
    | nil =>
      rw [fetchAllGo, hpage]
      simp [hsplit]
    | cons q qs =>
      have hb : ((q :: qs).take 100) ≠ [] := by simp
      obtain ⟨b, hbeq⟩ : ∃ b, ((q :: qs).take 100).getLast? = some b :=
        ⟨_, List.getLast?_eq_getLast _ hb⟩
      have hlast : ((q :: qs).take 100).dropLast ++ [b] = (q :: qs).take 100 :=
        dropLast_append_of_getLast? hbeq
      have hstep : fetchAllGo msgs (n + 1) (some m0.id) (pre1 ++ [m0]) =
          fetchAllGo msgs n (some b.id) ((pre1 ++ [m0]) ++ (q :: qs).take 100) := by
        rw [fetchAllGo, hpage, hbeq]
      rw [hstep]
      have hsplit2 : msgs =
          ((pre1 ++ [m0] ++ ((q :: qs).take 100).dropLast) ++ [b]) ++ (q :: qs).drop 100 := by
        rw [hsplit]
        have hT : ((pre1 ++ [m0] ++ ((q :: qs).take 100).dropLast) ++ [b]) ++
              (q :: qs).drop 100 =
            (pre1 ++ [m0]) ++ ((q :: qs).take 100 ++ (q :: qs).drop 100) := by
          rw [List.append_assoc (pre1 ++ [m0]) (((q :: qs).take 100).dropLast) [b], hlast,
            List.append_assoc]
        rw [hT, List.take_append_drop]
      have hlen2 : ((q :: qs).drop 100).length < n := by
        rw [List.length_drop]
        have hpos : 0 < (q :: qs).length := by simp
        omega
      have happ : (pre1 ++ [m0]) ++ (q :: qs).take 100 =
          (pre1 ++ [m0] ++ ((q :: qs).take 100).dropLast) ++ [b] := by
        rw [List.append_assoc (pre1 ++ [m0]) (((q :: qs).take 100).dropLast) [b], hlast]
      rw [happ]
      exact ih _ _ _ hsplit2 hlen2

theorem fetchAllGo_top (msgs : List Msg)
    (hdesc : msgs.Pairwise (fun a b => b.id < a.id)) :
    fetchAllGo msgs (msgs.length + 1) none [] = some msgs := by
  cases msgs with
  | nil => rfl
  | cons q qs =>
    have hb : ((q :: qs).take 100) ≠ [] := by simp
    obtain ⟨b, hbeq⟩ : ∃ b, ((q :: qs).take 100).getLast? = some b :=
      ⟨_, List.getLast?_eq_getLast _ hb⟩
    have hlast : ((q :: qs).take 100).dropLast ++ [b] = (q :: qs).take 100 :=
      dropLast_append_of_getLast? hbeq
    have hpage : fetchPage (q :: qs) none = (q :: qs).take 100 := rfl
    have hstep : fetchAllGo (q :: qs) ((q :: qs).length + 1) none [] =
        fetchAllGo (q :: qs) ((q :: qs).length) (some b.id) ([] ++ (q :: qs).take 100) := by
      rw [fetchAllGo, hpage, hbeq]
    rw [hstep]
    simp only [List.nil_append]
    have hsplit : (q :: qs) =
        (((q :: qs).take 100).dropLast ++ [b]) ++ (q :: qs).drop 100 := by
      rw [hlast]
      exact (List.take_append_drop _ _).symm
    have hlen : ((q :: qs).drop 100).length < (q :: qs).length := by
      rw [List.length_drop]
      simp only [List.length_cons]
      omega
    have hmain := fetchAllGo_complete (q :: qs) hdesc ((q :: qs).length)
      (((q :: qs).take 100).dropLast) b ((q :: qs).drop 100) hsplit hlen
    rw [hlast] at hmain
    exact hmain

theorem fetchAllGo_eq_pagesGo (msgs : List Msg) :
    ∀ (fuel : Nat) (cursor : Option Nat) (pacc : List (List Msg)),
      fetchAllGo msgs fuel cursor pacc.flatten =
        (fetchPagesGo msgs fuel cursor pacc).map List.flatten := by
  intro fuel
  induction fuel with
  | zero => intro cursor pacc; rfl
  | succ n ih =>
    intro cursor pacc
    rw [fetchAllGo, fetchPagesGo]
    cases hb : (fetchPage msgs cursor).getLast? with
    | none => rfl
    | some lastMsg =>
      have hthis := ih (some lastMsg.id) (pacc ++ [fetchPage msgs cursor])
      have hfl : (pacc ++ [fetchPage msgs cursor]).flatten =
          pacc.flatten ++ fetchPage msgs cursor := by simp
      rw [hfl] at hthis
      exact hthis

theorem fetchPagesGo_prop (msgs : List Msg) (P : List Msg → Prop)
    (hP : ∀ cursor, fetchPage msgs cursor ≠ [] → P (fetchPage msgs cursor)) :
    ∀ (fuel : Nat) (cursor : Option Nat) (pacc pages : List (List Msg)),
      (∀ p ∈ pacc, P p) →
      fetchPagesGo msgs fuel cursor pacc = some pages → ∀ p ∈ pages, P p := by
  intro fuel
  induction fuel with
  | zero =>
    intro cursor pacc pages hacc h
    simp [fetchPagesGo] at h
  | succ n ih =>
    intro cursor pacc pages hacc h
    rw [fetchPagesGo] at h
    cases hb : (fetchPage msgs cursor).getLast? with
    | none =>
      rw [hb] at h
      injection h with h2
      subst h2
      exact hacc
    | some lastMsg =>
      rw [hb] at h
      refine ih (some lastMsg.id) (pacc ++ [fetchPage msgs cursor]) pages ?_ h
      intro p hp
      rcases List.mem_append.mp hp with hp | hp
      · exact hacc p hp
      · have hpe : p = fetchPage msgs cursor := by simpa using hp
        subst hpe
        apply hP
        intro hnil
        rw [hnil] at hb
        simp at hb

/-- C5: for a channel history held newest-first with strictly descending ids,
`fetchAllMessages` pages backward in nonempty batches of at most 100 with
a before-cursor, stops at the first empty batch, and returns exactly the
concatenation of the fetched pages, reversed once into strictly ascending
(oldest-first) order; its length equals the sum of all page sizes. -/
theorem fetchAll_pages_spec (msgs : List Msg)
    (hdesc : msgs.Pairwise (fun a b => b.id < a.id)) :
    ∃ pages, fetchPages msgs = some pages ∧
      pages.flatten = msgs ∧
      fetchAllMessages msgs = some msgs.reverse ∧
      (∀ p ∈ pages, p ≠ [] ∧ p.length ≤ 100) ∧
      msgs.reverse.Pairwise (fun a b => a.id < b.id) ∧
      msgs.reverse.length = (pages.map List.length).sum := by
  have htop : fetchAllGo msgs (msgs.length + 1) none [] = some msgs :=
    fetchAllGo_top msgs hdesc
  have heq := fetchAllGo_eq_pagesGo msgs (msgs.length + 1) none []
  rw [show (([] : List (List Msg)).flatten) = [] from rfl, htop] at heq
  obtain ⟨pages, hp, hfl⟩ := Option.map_eq_some'.mp heq.symm
  refine ⟨pages, hp, hfl, ?_, ?_, ?_, ?_⟩
  · rw [fetchAllMessages, htop]
    rfl
  · refine fetchPagesGo_prop msgs (fun p => p ≠ [] ∧ p.length ≤ 100) ?_ _ none [] pages
      (by simp) hp
    intro cursor hne
    refine ⟨hne, ?_⟩
    cases cursor with
    | none => exact List.length_take_le _ _
    | some c => exact List.length_take_le _ _
  · exact List.pairwise_reverse.mpr hdesc
  · rw [List.length_reverse, ← hfl, List.length_flatten]

/-- C5 witness: the pagination spec applied to a concrete three-message
descending history. -/
theorem fetchAll_pages_spec_witness :
    msgsDesc.Pairwise (fun a b => b.id < a.id) ∧
    (∃ pages, fetchPages msgsDesc = some pages ∧
      pages.flatten = msgsDesc ∧
      fetchAllMessages msgsDesc = some msgsDesc.reverse ∧
      (∀ p ∈ pages, p ≠ [] ∧ p.length ≤ 100) ∧
      msgsDesc.reverse.Pairwise (fun a b => a.id < b.id) ∧
      msgsDesc.reverse.length = (pages.map List.length).sum) :=
  ⟨by decide, fetchAll_pages_spec msgsDesc (by decide)⟩

end Drift
